import Mathlib

/-!
Verification of the SpectraFilm analog-film simulation core.

This file gives a shallow embedding, over the real numbers, of the
TypeScript simulation core (simulation engine, dye coupling, halation,
grain, pyramid bloom, and the orchestrator's derived statistics), and
proves properties of that embedding.

Modelling conventions:
* JavaScript double arithmetic is embedded as exact real arithmetic
  (`ℝ`); NaN/Infinity do not exist in `ℝ`, so guards that in JS exist to
  dodge them appear as hypotheses or conventions noted at each def.
* A JS function that can `throw` is embedded with result type
  `Except String _`; a function with no `throw` statement is total (JS
  out-of-range array reads yield `undefined`/NaN, not exceptions; the
  embedding reads such slots with `List.getD _ _ 0`).
* Buffers (`Float32Array`) are embedded as total index-to-value maps
  `ℕ → ℝ`; freshly allocated arrays are zero outside the written range,
  which the maps reproduce.
-/

namespace SpectraFilm

/-- One control point of a calibration curve (`Point` in `types.ts`). -/
structure Point where
  x : ℝ
  y : ℝ

/-- Fixed 3-tuple of floats (`Vector3 = [number, number, number]`). -/
@[ext]
structure Vector3 where
  v0 : ℝ
  v1 : ℝ
  v2 : ℝ

/-- Base-10 logarithm, JS `Math.log10`. -/
noncomputable def log10 (x : ℝ) : ℝ := Real.logb 10 x

/-- JS `a || b` on numbers, restricted to the real embedding: the only
falsy real is `0` (JS also treats NaN and -0 as falsy; `ℝ` has neither). -/
noncomputable def jsOr (a b : ℝ) : ℝ := if a = 0 then b else a

/-- Unfolding lemma: `Except.ok` is ok. -/
lemma isOk_ok (x : Vector3) : (Except.ok (ε := String) x).isOk = true := rfl

/-- Unfolding lemma: `Except.error` is not ok. -/
lemma isOk_error (e : String) : (Except.error (α := Vector3) e).isOk = false := rfl

/-- JS `Math.max(0, Math.min(1, v))`. -/
def clamp01 (v : ℝ) : ℝ := max 0 (min 1 v)

/-! ## CMY dye coupling (`dye-coupling.ts`) -/

/-- `applyDyeCouplingToDensity(densities, matrix)`: applies the flat
row-major 3x3 crosstalk matrix to a density triple.  The source contains
no `throw` and no shape check; out-of-range `matrix[i]` reads yield NaN
in JS (embedded via `getD _ _ 0`), never an exception, so the embedding
always returns `Except.ok`. -/
def applyDyeCouplingToDensity (densities : Vector3) (matrix : List ℝ) :
    Except String Vector3 :=
  let dr := densities.v0
  let dg := densities.v1
  let db := densities.v2
  .ok ⟨matrix.getD 0 0 * dr + matrix.getD 1 0 * dg + matrix.getD 2 0 * db,
       matrix.getD 3 0 * dr + matrix.getD 4 0 * dg + matrix.getD 5 0 * db,
       matrix.getD 6 0 * dr + matrix.getD 7 0 * dg + matrix.getD 8 0 * db⟩

/-- `applyDyeCoupling(rgb, matrix)`: transmittance-space variant.  It
throws when the matrix does not have exactly 9 elements, otherwise
converts to density (clamped log), applies the matrix, converts back. -/
noncomputable def applyDyeCoupling (rgb : Vector3) (matrix : List ℝ) :
    Except String Vector3 :=
  if matrix.length ≠ 9 then
    .error "Dye coupling matrix must have 9 elements (3x3)"
  else
    let epsilon : ℝ := 1e-6
    let dr := -log10 (max rgb.v0 epsilon)
    let dg := -log10 (max rgb.v1 epsilon)
    let db := -log10 (max rgb.v2 epsilon)
    match applyDyeCouplingToDensity ⟨dr, dg, db⟩ matrix with
    | .ok d => .ok ⟨(10:ℝ) ^ (-d.v0), (10:ℝ) ^ (-d.v1), (10:ℝ) ^ (-d.v2)⟩
    | .error e => .error e

/-- `IDENTITY_MATRIX` (no crosstalk). -/
def IDENTITY_MATRIX : List ℝ := [1.0, 0.0, 0.0, 0.0, 1.0, 0.0, 0.0, 0.0, 1.0]

/-- C3: for every density triple `d`, applying the identity crosstalk
matrix in density space returns `d` unchanged. -/
theorem identity_dye_coupling_noop (d : Vector3) :
    applyDyeCouplingToDensity d IDENTITY_MATRIX = .ok d := by
  cases d with
  | mk a b c =>
    simp only [applyDyeCouplingToDensity, IDENTITY_MATRIX, List.getD,
      Except.ok.injEq, Vector3.mk.injEq]
    refine ⟨by simp; ring, by simp; ring, by simp; ring⟩

/-- C5 counterexample: the density-space entry point does not raise on a
matrix with other than 9 elements (here: the empty matrix); it applies
the coupling with out-of-range reads instead. -/
theorem dye_coupling_density_no_raise_counterexample :
    (applyDyeCouplingToDensity ⟨1, 1, 1⟩ []).isOk = true := by
  simp [applyDyeCouplingToDensity, isOk_ok]

/-- C5 (amended): only the transmittance-space `applyDyeCoupling`
validates the matrix shape — it raises exactly when the element count is
not 9 — while `applyDyeCouplingToDensity` never raises, for every input
triple and every matrix. -/
theorem dye_coupling_raise_behaviour (v : Vector3) (matrix : List ℝ) :
    ((applyDyeCoupling v matrix).isOk = true ↔ matrix.length = 9) ∧
      (applyDyeCouplingToDensity v matrix).isOk = true := by
  constructor
  · by_cases h : matrix.length = 9
    · simp [applyDyeCoupling, h, applyDyeCouplingToDensity, isOk_ok]
    · simp [applyDyeCoupling, h, isOk_error]
  · simp [applyDyeCouplingToDensity, isOk_ok]

/-! ## Red halation (`halation.ts`) -/

/-- `HalationOptions`; `threshold` is optional with default 0.6 applied
inside `applyRedHalation`. -/
structure HalationOptions where
  strength : ℝ
  radius : ℝ
  threshold : Option ℝ := none

/-- `applyRedHalation(r, g, b, options)`: computes a highlight fraction
of the mean RGB above the threshold and, when positive, adds a
proportional boost to the red channel only, capped at 1. -/
noncomputable def applyRedHalation (r g b : ℝ) (options : HalationOptions) :
    Vector3 :=
  let strength := options.strength
  let threshold := options.threshold.getD 0.6
  let isHighlight := max 0 ((r + g + b) / 3.0 - threshold) / (1.0 - threshold)
  if isHighlight ≤ 0 then ⟨r, g, b⟩
  else
    let halationAmount := isHighlight * strength * 0.1
    ⟨min 1 (r + halationAmount), g, b⟩

/-- C7 counterexample: at input `[2,2,2]` with strength 1 and default
threshold, the produced red channel (capped at 1) is strictly below the
input red channel 2, refuting claim C7's "the output red is never below
the input red". -/
theorem halation_red_can_decrease :
    (applyRedHalation 2 2 2 ⟨1, 1.5, none⟩).v0 < 2 := by
  have hcond : ¬(max 0 ((2 + 2 + 2 : ℝ) / 3.0 - Option.getD none 0.6) /
      (1.0 - Option.getD (none : Option ℝ) 0.6) ≤ 0) := by
    norm_num
  simp only [applyRedHalation, Option.getD, hcond, if_false, if_neg hcond]
  have : max 0 ((2 + 2 + 2 : ℝ) / 3.0 - 0.6) = 1.4 := by norm_num
  norm_num [this]

/-- C7 (amended): the green and blue channels are always unchanged; with
a threshold below 1, the output equals the input exactly whenever the
mean RGB is at or below the threshold; and whenever the strength is
non-negative, the threshold is below 1, and the input red does not
exceed 1, the output red is at least the input red. -/
theorem halation_amended (r g b : ℝ) (options : HalationOptions) :
    ((applyRedHalation r g b options).v1 = g ∧
      (applyRedHalation r g b options).v2 = b) ∧
    (options.threshold.getD 0.6 < 1 →
      (r + g + b) / 3 ≤ options.threshold.getD 0.6 →
      applyRedHalation r g b options = ⟨r, g, b⟩) ∧
    (0 ≤ options.strength → options.threshold.getD 0.6 < 1 → r ≤ 1 →
      r ≤ (applyRedHalation r g b options).v0) := by
  set th := options.threshold.getD 0.6 with hth
  refine ⟨?_, ?_, ?_⟩
  · unfold applyRedHalation
    by_cases hc : max 0 ((r + g + b) / 3.0 - th) / (1.0 - th) ≤ 0 <;>
      simp [← hth, hc]
  · intro h1 hmean
    unfold applyRedHalation
    have hmax : max 0 ((r + g + b) / 3.0 - th) = 0 :=
      max_eq_left (by linarith)
    simp [← hth, hmax]
  · intro hs h1 hr
    unfold applyRedHalation
    by_cases hc : max 0 ((r + g + b) / 3.0 - th) / (1.0 - th) ≤ 0
    · simp [← hth, hc]
    · simp only [← hth, hc, if_false, if_neg hc]
      have hhl : 0 ≤ max 0 ((r + g + b) / 3.0 - th) / (1.0 - th) :=
        div_nonneg (le_max_left _ _) (by linarith)
      refine le_min hr ?_
      nlinarith [mul_nonneg (mul_nonneg hhl hs) (by norm_num : (0:ℝ) ≤ 0.1)]

/-- C7 witness: a mid-gray input with default threshold satisfies every
hypothesis of the amended halation theorem and passes through unchanged,
with the red channel not decreased. -/
theorem halation_amended_witness :
    ((0:ℝ) ≤ 0.15 ∧ Option.getD (none : Option ℝ) 0.6 < 1 ∧
      ((0.5:ℝ) + 0.5 + 0.5) / 3 ≤ Option.getD (none : Option ℝ) 0.6 ∧
      (0.5:ℝ) ≤ 1) ∧
    applyRedHalation 0.5 0.5 0.5 ⟨0.15, 1.5, none⟩ = ⟨0.5, 0.5, 0.5⟩ ∧
    (0.5:ℝ) ≤ (applyRedHalation 0.5 0.5 0.5 ⟨0.15, 1.5, none⟩).v0 := by
  refine ⟨⟨by norm_num, by norm_num [Option.getD], by norm_num [Option.getD],
    by norm_num⟩, ?_, ?_⟩
  · exact (halation_amended 0.5 0.5 0.5 ⟨0.15, 1.5, none⟩).2.1
      (by norm_num [Option.getD]) (by norm_num [Option.getD])
  · exact (halation_amended 0.5 0.5 0.5 ⟨0.15, 1.5, none⟩).2.2
      (by norm_num) (by norm_num [Option.getD]) (by norm_num)

/-! ## Clustered film grain (`grain.ts`, `applyPhysicalGrain`) -/

/-- `GrainOptions`; optional fields default inside the grain functions
(strength 1.0, size 1.0, monochrome true). -/
structure GrainOptions where
  iso : ℝ
  strength : Option ℝ := none
  size : Option ℝ := none
  monochrome : Option Bool := none

/-- JS `ToUint32` of an integer value. -/
def toUint32 (n : ℤ) : ℕ := (n % 4294967296).toNat

/-- JS `ToInt32` reinterpretation of a 32-bit pattern. -/
def toInt32 (n : ℕ) : ℤ :=
  if n % 4294967296 < 2147483648 then (n % 4294967296 : ℤ)
  else (n % 4294967296 : ℤ) - 4294967296

/-- JS `a ^ b` (bitwise xor): both operands are converted to int32, the
bit patterns xored, the result read back as int32. -/
def jsXor (a b : ℤ) : ℤ := toInt32 (toUint32 a ^^^ toUint32 b)

/-- Wang-style integer hash from `applyPhysicalGrain`, mapped to [0,1).
The source computes `x = ((x >>> 16) ^ x) * 0x45d9f3b` on JS numbers;
the embedding keeps the products exact and reduces mod 2^32 where the JS
shift/xor operators do (exact for the products below 2^53 that pixel
coordinates produce). -/
noncomputable def wangHash (p : ℤ) : ℝ :=
  let x0 : ℕ := toUint32 p
  let a1 : ℕ := (x0 >>> 16) ^^^ x0
  let x1 : ℕ := a1 * 0x45d9f3b
  let a2 : ℕ := ((x1 % 4294967296) >>> 16) ^^^ (x1 % 4294967296)
  let x2 : ℕ := a2 * 0x45d9f3b
  let a3 : ℕ := ((x2 % 4294967296) >>> 16) ^^^ (x2 % 4294967296)
  (a3 : ℝ) / 4294967296.0

/-- Rec.709 luminance `0.2126*r + 0.7152*g + 0.0722*b`. -/
noncomputable def rec709Luminance (r g b : ℝ) : ℝ :=
  0.2126 * r + 0.7152 * g + 0.0722 * b

/-- `isoFactor = Math.pow(iso / 200, 0.6)`. -/
noncomputable def grainIsoFactor (iso : ℝ) : ℝ := (iso / 200) ^ (0.6 : ℝ)

/-- `baseStrength = 0.04 * strength * isoFactor` (the
`applyPhysicalGrain` constant). -/
noncomputable def grainBaseStrength (iso strength : ℝ) : ℝ :=
  0.04 * strength * grainIsoFactor iso

/-- `midtoneWeight = Math.max(0, 1.0 - Math.pow(Math.abs(L - 0.5) * 2.0, 1.2))`. -/
noncomputable def midtoneWeight (luminance : ℝ) : ℝ :=
  max 0 (1.0 - (|luminance - 0.5| * 2.0) ^ (1.2 : ℝ))

/-- `amplitude = baseStrength * midtoneWeight` as a function of the
luminance. -/
noncomputable def grainAmplitudeOfLum (iso strength luminance : ℝ) : ℝ :=
  grainBaseStrength iso strength * midtoneWeight luminance

/-- `applyPhysicalGrain(r, g, b, x, y, options)`: deterministic
coordinate-hashed clustered grain.  `size` is destructured by the source
but unused in this function.  The seed offsets follow JS operator
precedence: `+` binds tighter than `^`, so `(x*A) ^ (y*B) + k` xors
against `y*B + k`. -/
noncomputable def applyPhysicalGrain (r g b : ℝ) (x y : ℕ)
    (options : GrainOptions) : Vector3 :=
  let strength := options.strength.getD 1.0
  let amplitude :=
    grainAmplitudeOfLum options.iso strength (rec709Luminance r g b)
  let n1 := wangHash (jsXor ((x : ℤ) * 1597334677) ((y : ℤ) * 3812015801))
  let gx := x / 2
  let gy := y / 2
  let n2 := wangHash (jsXor ((gx : ℤ) * 1597334677) ((gy : ℤ) * 3812015801 + 1))
  let noise := (n1 * 0.7 + n2 * 0.3 - 0.5) * 2.0 * amplitude
  if options.monochrome.getD true then
    ⟨clamp01 (r + noise), clamp01 (g + noise), clamp01 (b + noise)⟩
  else
    let noiseR := noise
    let noiseG :=
      (wangHash (jsXor ((x : ℤ) * 1597334677) ((y : ℤ) * 3812015801 + 2)) - 0.5)
        * 2.0 * amplitude
    let noiseB :=
      (wangHash (jsXor ((x : ℤ) * 1597334677) ((y : ℤ) * 3812015801 + 3)) - 0.5)
        * 2.0 * amplitude
    ⟨clamp01 (r + noiseR), clamp01 (g + noiseG), clamp01 (b + noiseB)⟩

/-- Helper: the midtone mask vanishes when the luminance is exactly 0 or
exactly 1, and equals 1 at luminance 0.5. -/
lemma midtoneWeight_extremes :
    midtoneWeight 0 = 0 ∧ midtoneWeight 1 = 0 ∧ midtoneWeight 0.5 = 1 := by
  unfold midtoneWeight
  have h0 : |(0 : ℝ) - 0.5| * 2.0 = 1 := by rw [abs_of_nonpos] <;> norm_num
  have h1 : |(1 : ℝ) - 0.5| * 2.0 = 1 := by rw [abs_of_nonneg] <;> norm_num
  have h5 : |(0.5 : ℝ) - 0.5| * 2.0 = 0 := by norm_num
  refine ⟨?_, ?_, ?_⟩
  · rw [h0, Real.one_rpow]; norm_num
  · rw [h1, Real.one_rpow]; norm_num
  · rw [h5, Real.zero_rpow (by norm_num)]; norm_num

/-- C6: for fixed options and any pixel coordinates, grain applied to an
in-range RGB triple whose Rec.709 luminance is exactly 0 or exactly 1
returns the triple unchanged; and for non-negative iso and strength the
grain amplitude is maximal at luminance exactly 0.5. -/
theorem grain_vanishes_at_extremes_max_at_mid :
    (∀ (r g b : ℝ) (x y : ℕ) (options : GrainOptions),
      0 ≤ r → r ≤ 1 → 0 ≤ g → g ≤ 1 → 0 ≤ b → b ≤ 1 →
      (rec709Luminance r g b = 0 ∨ rec709Luminance r g b = 1) →
      applyPhysicalGrain r g b x y options = ⟨r, g, b⟩) ∧
    (∀ iso strength luminance : ℝ, 0 ≤ iso → 0 ≤ strength →
      grainAmplitudeOfLum iso strength luminance ≤
        grainAmplitudeOfLum iso strength 0.5) := by
  constructor
  · intro r g b x y options hr0 hr1 hg0 hg1 hb0 hb1 hlum
    have hmw : midtoneWeight (rec709Luminance r g b) = 0 := by
      rcases hlum with h | h <;> rw [h]
      · exact midtoneWeight_extremes.1
      · exact midtoneWeight_extremes.2.1
    have hclamp : ∀ v : ℝ, 0 ≤ v → v ≤ 1 → clamp01 v = v := by
      intro v h0 h1
      unfold clamp01
      rw [min_eq_right h1, max_eq_right h0]
    unfold applyPhysicalGrain
    simp only [grainAmplitudeOfLum, hmw, mul_zero, zero_mul, add_zero,
      sub_zero]
    by_cases hmono : options.monochrome.getD true <;>
      simp [hmono, hclamp r hr0 hr1, hclamp g hg0 hg1, hclamp b hb0 hb1]
  · intro iso strength luminance hiso hstr
    unfold grainAmplitudeOfLum
    have hbs : 0 ≤ grainBaseStrength iso strength := by
      unfold grainBaseStrength grainIsoFactor
      have : (0 : ℝ) ≤ (iso / 200) ^ (0.6 : ℝ) :=
        Real.rpow_nonneg (by positivity) _
      positivity
    have hle : midtoneWeight luminance ≤ midtoneWeight 0.5 := by
      rw [midtoneWeight_extremes.2.2]
      unfold midtoneWeight
      have : (0 : ℝ) ≤ (|luminance - 0.5| * 2.0) ^ (1.2 : ℝ) :=
        Real.rpow_nonneg (by positivity) _
      rw [max_le_iff]
      constructor <;> linarith
    exact mul_le_mul_of_nonneg_left hle hbs

/-- C6 witness: pure black `[0,0,0]` has luminance exactly 0 and passes
through the grain unchanged; and the amplitude at luminance 0.25 is at
most the amplitude at 0.5, for iso 400 and strength 0.5. -/
theorem grain_vanishes_witness :
    ((0:ℝ) ≤ 0 ∧ (0:ℝ) ≤ 1 ∧ rec709Luminance 0 0 0 = 0 ∧
      applyPhysicalGrain 0 0 0 3 7 ⟨400, none, none, none⟩ = ⟨0, 0, 0⟩) ∧
    ((0:ℝ) ≤ 400 ∧ (0:ℝ) ≤ 0.5 ∧
      grainAmplitudeOfLum 400 0.5 0.25 ≤ grainAmplitudeOfLum 400 0.5 0.5) := by
  have hlum : rec709Luminance 0 0 0 = 0 := by
    unfold rec709Luminance; ring
  refine ⟨⟨le_refl 0, by norm_num, hlum, ?_⟩, by norm_num, by norm_num, ?_⟩
  · exact grain_vanishes_at_extremes_max_at_mid.1 0 0 0 3 7 _
      (le_refl 0) (by norm_num) (le_refl 0) (by norm_num) (le_refl 0)
      (by norm_num) (Or.inl hlum)
  · exact grain_vanishes_at_extremes_max_at_mid.2 400 0.5 0.25
      (by norm_num) (by norm_num)

/-! ## Film profile data model (`types.ts` shape used by `engine.ts`) -/

/-- Film type variants inferred by the engine. -/
inductive FilmType where
  | negative
  | reversal
  | bw_negative
deriving DecidableEq

/-- Sensitometry block: the three per-channel H&D curves. -/
structure Sensitometry where
  red : List Point
  green : List Point
  blue : List Point

/-- Physics block: optional sensitivity matrix and dye-density table. -/
structure Physics where
  rgb_to_raw_matrix : Option (List (List ℝ)) := none
  dye_density : Option (List (List ℝ)) := none

/-- Profile metadata: optional explicit film type and process string. -/
structure Meta where
  film_type : Option FilmType := none
  process : Option String := none

/-- Immutable film profile consumed by the engine. -/
structure FilmProfile where
  id : String
  meta : Meta := {}
  physics : Physics := {}
  sensitometry : Sensitometry

/-! ## Curve and matrix math (`engine.ts` top level) -/

/-- Element access `m[i][j]` on a nested row-major number array; reads
of slots outside the provided shape default to 0 (JS would yield
`undefined`/NaN; all callers guarantee a full 3x3 shape). -/
def mGet (m : List (List ℝ)) (i j : ℕ) : ℝ := (m.getD i []).getD j 0

/-- `multiplyMatrixVector(m, v)`: standard row-major 3x3 by 3x1 multiply
(used by the constructor for the normalization scale). -/
def multiplyMatrixVector (m : List (List ℝ)) (v : Vector3) : Vector3 :=
  ⟨mGet m 0 0 * v.v0 + mGet m 0 1 * v.v1 + mGet m 0 2 * v.v2,
   mGet m 1 0 * v.v0 + mGet m 1 1 * v.v1 + mGet m 1 2 * v.v2,
   mGet m 2 0 * v.v0 + mGet m 2 1 * v.v1 + mGet m 2 2 * v.v2⟩

/-- Linear scan of `interpolate`: the first index `i` with
`x >= points[i].x && x < points[i+1].x` yields the linear blend of the
two bracketing points; `none` when no interval matches. -/
noncomputable def interpLoop (x : ℝ) : List Point → Option ℝ
  | p :: q :: rest =>
    if p.x ≤ x ∧ x < q.x then
      some (p.y + (x - p.x) / (q.x - p.x) * (q.y - p.y))
    else interpLoop x (q :: rest)
  | _ => none

/-- `interpolate(x, points)`: 0 on an empty curve; clamps to the first
or last y outside the domain; linear interpolation on the first
bracketing interval inside; falls back to the last y. -/
noncomputable def interpolate (x : ℝ) (points : List Point) : ℝ :=
  match points with
  | [] => 0
  | p0 :: rest =>
    let plast := (p0 :: rest).getLast (List.cons_ne_nil p0 rest)
    if x ≤ p0.x then p0.y
    else if plast.x ≤ x then plast.y
    else (interpLoop x (p0 :: rest)).getD plast.y

/-- `getMinY(pts)` = `Math.min(...pts.map(p => p.y))`.  JS gives +inf on
an empty curve (the constructor would then throw on the follow-up index
access); the embedding returns 0 there, and the engine theorems assume
non-empty curves. -/
noncomputable def getMinY (pts : List Point) : ℝ :=
  match pts with
  | [] => 0
  | p :: rest => rest.foldl (fun a q => min a q.y) p.y

/-! ## Simulation engine (`engine.ts`) -/

namespace SimulationEngine

/-- Constructor fallback: missing sensitivity matrix defaults to the
identity. -/
def sensitivityMatrix (p : FilmProfile) : List (List ℝ) :=
  p.physics.rgb_to_raw_matrix.getD [[1, 0, 0], [0, 1, 0], [0, 0, 1]]

/-- Constructor fallback: missing dye-density table defaults to empty. -/
def dyeDensity (p : FilmProfile) : List (List ℝ) :=
  p.physics.dye_density.getD []

/-- One bisection step of `findMidpointShift`. -/
noncomputable def bisectStep (points : List Point)
    (dMinVal target slope : ℝ) (lh : ℝ × ℝ) : ℝ × ℝ :=
  let mid := (lh.1 + lh.2) / 2
  let analyticalDensity := interpolate mid points - dMinVal
  if analyticalDensity < target then
    if slope > 0 then (mid, lh.2) else (lh.1, mid)
  else
    if slope > 0 then (lh.1, mid) else (mid, lh.2)

/-- `findMidpointShift(points, target)`: 15 bisection iterations over
the fixed bounds [-4, 4], direction depending on the curve's overall
slope sign. -/
noncomputable def findMidpointShift (points : List Point) (target : ℝ) : ℝ :=
  let dMinVal := getMinY points
  let slope := (points.getLastD ⟨0, 0⟩).y - (points.headD ⟨0, 0⟩).y
  let lh := (bisectStep points dMinVal target slope)^[15] (-4, 4)
  (lh.1 + lh.2) / 2

/-- Per-channel EV alignment offsets, relative to red (target density
1.0 above dMin). -/
noncomputable def sensitivityOffsets (p : FilmProfile) : Vector3 :=
  let midR := findMidpointShift p.sensitometry.red 1.0
  let midG := findMidpointShift p.sensitometry.green 1.0
  let midB := findMidpointShift p.sensitometry.blue 1.0
  ⟨0, midG - midR, midB - midR⟩

/-- Normalization scale: inverse of the raw response to scene white
`[1,1,1]` through `multiplyMatrixVector`, guarding 0 components to 1. -/
noncomputable def normalizationScale (p : FilmProfile) : Vector3 :=
  let rawWhite := multiplyMatrixVector (sensitivityMatrix p) ⟨1, 1, 1⟩
  ⟨1.0 / jsOr rawWhite.v0 1, 1.0 / jsOr rawWhite.v1 1, 1.0 / jsOr rawWhite.v2 1⟩

/-- Per-channel minimum density (base fog / mask). -/
noncomputable def dMin (p : FilmProfile) : Vector3 :=
  ⟨getMinY p.sensitometry.red, getMinY p.sensitometry.green,
   getMinY p.sensitometry.blue⟩

/-- Bool substring test, JS `String.prototype.includes`. -/
def charsLeadWith : List Char → List Char → Bool
  | [], _ => true
  | _ :: _, [] => false
  | a :: s, b :: t => a == b && charsLeadWith s t

/-- Substring containment over the char lists of two strings. -/
def jsIncludes (s sub : String) : Bool :=
  go s.data sub.data
where
  /-- Scan every tail of `l` for `sub` as a leading segment. -/
  go : List Char → List Char → Bool
    | [], sub => sub.isEmpty
    | c :: t, sub => charsLeadWith sub (c :: t) || go t sub

/-- `inferFilmType()`: explicit profile field first, then process
string, then identifier substrings; default negative. -/
def inferFilmType (p : FilmProfile) : FilmType :=
  match p.meta.film_type with
  | some t => t
  | none =>
    let process := p.meta.process.map String.toLower
    let id := p.id.toLower
    if process == some "e-6" || jsIncludes id "provia" ||
        jsIncludes id "velvia" || jsIncludes id "ektachrome" then
      .reversal
    else if process == some "bw" || jsIncludes id "tri-x" ||
        jsIncludes id "hp5" || jsIncludes id "tmax" then
      .bw_negative
    else
      .negative

/-- `expose(rgb, exposureCompEv)`: the raw triple is computed by the
hand-unrolled products `rgb[0]*m[0][0] + rgb[1]*m[1][0] + rgb[2]*m[2][0]`
etc. — i.e. the vector-times-matrix form `raw[i] = sum_j m[j][i]*rgb[j]`
— then scaled by normalizationScale, `10^offset` and `2^evComp`, clamped
at 1e-6 and passed through log10. -/
noncomputable def expose (p : FilmProfile) (rgb : Vector3)
    (exposureCompEv : ℝ) : Vector3 :=
  let exposureScale := (2 : ℝ) ^ exposureCompEv
  let m := sensitivityMatrix p
  let ns := normalizationScale p
  let offs := sensitivityOffsets p
  let rawR := rgb.v0 * mGet m 0 0 + rgb.v1 * mGet m 1 0 + rgb.v2 * mGet m 2 0
  let rawG := rgb.v0 * mGet m 0 1 + rgb.v1 * mGet m 1 1 + rgb.v2 * mGet m 2 1
  let rawB := rgb.v0 * mGet m 0 2 + rgb.v1 * mGet m 1 2 + rgb.v2 * mGet m 2 2
  let sR := rawR * (ns.v0 * (10 : ℝ) ^ offs.v0 * exposureScale)
  let sG := rawG * (ns.v1 * (10 : ℝ) ^ offs.v1 * exposureScale)
  let sB := rawB * (ns.v2 * (10 : ℝ) ^ offs.v2 * exposureScale)
  ⟨log10 (max 1e-6 sR), log10 (max 1e-6 sG), log10 (max 1e-6 sB)⟩

/-- `develop(logExp)`: per-channel H&D lookup minus dMin, floored at 0. -/
noncomputable def develop (p : FilmProfile) (logExp : Vector3) : Vector3 :=
  let c := interpolate logExp.v0 p.sensitometry.red - (dMin p).v0
  let m := interpolate logExp.v1 p.sensitometry.green - (dMin p).v1
  let y := interpolate logExp.v2 p.sensitometry.blue - (dMin p).v2
  ⟨max 0 c, max 0 m, max 0 y⟩

/-- `scan(densityCMY)`: pure Beer-Lambert `10^-density` when the dye
table is empty, else a Gaussian-weighted spectral integration over the
profile's wavelength samples (the wavelength list comes from
`color_constants.json`, an asset outside the provided sources; the
engine is parametrized by it and no claim depends on its values). -/
noncomputable def scan (p : FilmProfile) (wavelengths : List ℝ)
    (densityCMY : Vector3) : Vector3 :=
  let dd := dyeDensity p
  if dd.length = 0 then
    ⟨(10 : ℝ) ^ (-densityCMY.v0), (10 : ℝ) ^ (-densityCMY.v1),
     (10 : ℝ) ^ (-densityCMY.v2)⟩
  else
    let sigma : ℝ := 20
    let sR := fun i =>
      Real.exp (-0.5 * ((wavelengths.getD i 0 - 650) / sigma) ^ (2 : ℕ))
    let sG := fun i =>
      Real.exp (-0.5 * ((wavelengths.getD i 0 - 540) / sigma) ^ (2 : ℕ))
    let sB := fun i =>
      Real.exp (-0.5 * ((wavelengths.getD i 0 - 440) / sigma) ^ (2 : ℕ))
    let trans := fun i =>
      let dye := dd.getD i []
      let dC := if 5 ≤ dye.length then dye.getD 1 0
        else if 4 ≤ dye.length then dye.getD 1 0
        else if dye.length = 2 then dye.getD 1 0 else 0
      let dM := if 5 ≤ dye.length then dye.getD 2 0
        else if 4 ≤ dye.length then dye.getD 2 0
        else if dye.length = 2 then dye.getD 1 0 else 0
      let dY := if 5 ≤ dye.length then dye.getD 3 0
        else if 4 ≤ dye.length then dye.getD 3 0
        else if dye.length = 2 then dye.getD 1 0 else 0
      let dBase := if 5 ≤ dye.length then dye.getD 4 0 else 0
      let totalDensity := densityCMY.v0 * dC + densityCMY.v1 * dM +
        densityCMY.v2 * dY + dBase
      (10 : ℝ) ^ (-totalDensity)
    let n := wavelengths.length
    let R_trans := (Finset.range n).sum (fun i => trans i * sR i)
    let G_trans := (Finset.range n).sum (fun i => trans i * sG i)
    let B_trans := (Finset.range n).sum (fun i => trans i * sB i)
    let N_r := (Finset.range n).sum sR
    let N_g := (Finset.range n).sum sG
    let N_b := (Finset.range n).sum sB
    ⟨R_trans / jsOr N_r 1, G_trans / jsOr N_g 1, B_trans / jsOr N_b 1⟩

/-- Constructor base response: the engine's own expose/develop/scan at
input black and -20 EV; replaced by type-dependent defaults when any
channel is below the 0.01 validity floor, otherwise floored at 1e-6. -/
noncomputable def baseResponse (p : FilmProfile) (wavelengths : List ℝ) :
    Vector3 :=
  let logExpZero := expose p ⟨0, 0, 0⟩ (-20)
  let densityZero := develop p logExpZero
  let computedBase := scan p wavelengths densityZero
  let isSlideFilm := inferFilmType p = FilmType.reversal
  let defaultBase : Vector3 :=
    if isSlideFilm then ⟨0.9, 0.9, 0.9⟩ else ⟨0.4, 0.15, 0.08⟩
  if computedBase.v0 < 0.01 ∨ computedBase.v1 < 0.01 ∨
      computedBase.v2 < 0.01 then
    defaultBase
  else
    ⟨max 1e-6 computedBase.v0, max 1e-6 computedBase.v1,
     max 1e-6 computedBase.v2⟩

/-- `invert(scannedRGB, gamma)`: divide by the base response (guarded at
1e-9), clamp at 1e-9, negate the log10, scale by gamma. -/
noncomputable def invert (p : FilmProfile) (wavelengths : List ℝ)
    (scannedRGB : Vector3) (gamma : ℝ) : Vector3 :=
  let base := baseResponse p wavelengths
  let normR := scannedRGB.v0 / max 1e-9 base.v0
  let normG := scannedRGB.v1 / max 1e-9 base.v1
  let normB := scannedRGB.v2 / max 1e-9 base.v2
  ⟨-log10 (max 1e-9 normR) * gamma, -log10 (max 1e-9 normG) * gamma,
   -log10 (max 1e-9 normB) * gamma⟩

/-- `processPixel(rgb, evComp)` = scan of develop of expose. -/
noncomputable def processPixel (p : FilmProfile) (wavelengths : List ℝ)
    (rgb : Vector3) (exposureCompEv : ℝ) : Vector3 :=
  scan p wavelengths (develop p (expose p rgb exposureCompEv))

end SimulationEngine

/-- C2: with an absent (empty) dye-density table, `scan` is exactly
`10^-density` per channel, for every profile (hence every film type),
wavelength table, and density triple. -/
theorem scan_beer_lambert_when_no_dye_table (p : FilmProfile)
    (wavelengths : List ℝ) (d : Vector3)
    (h : SimulationEngine.dyeDensity p = []) :
    SimulationEngine.scan p wavelengths d =
      ⟨(10 : ℝ) ^ (-d.v0), (10 : ℝ) ^ (-d.v1), (10 : ℝ) ^ (-d.v2)⟩ := by
  unfold SimulationEngine.scan
  rw [h]
  simp

/-- Two-point linear test curve shared by the concrete witness profiles. -/
def testCurve : List Point := [⟨-4, 0⟩, ⟨4, 2⟩]

/-- Concrete profile: no physics overrides, identical linear curves. -/
def testProfile : FilmProfile :=
  { id := "test_film"
    sensitometry := { red := testCurve, green := testCurve, blue := testCurve } }

/-- C2 witness: the Beer-Lambert identity evaluated on the concrete
profile (whose dye table is absent) at density `[1, 0.5, 2]`. -/
theorem scan_beer_lambert_witness :
    SimulationEngine.dyeDensity testProfile = [] ∧
    SimulationEngine.scan testProfile [400, 500, 600] ⟨1, 0.5, 2⟩ =
      ⟨(10 : ℝ) ^ (-(1 : ℝ)), (10 : ℝ) ^ (-(0.5 : ℝ)), (10 : ℝ) ^ (-(2 : ℝ))⟩ := by
  refine ⟨rfl, ?_⟩
  exact scan_beer_lambert_when_no_dye_table testProfile [400, 500, 600]
    ⟨1, 0.5, 2⟩ rfl

/-- C10: under the construction-time precondition that the sensitometry
curves are non-empty (the JS constructor throws otherwise), every
component of the constructed base response is at least 0.01 — the
defaults substituted below the validity floor have minimum component
0.08, and otherwise each component already meets the floor — and hence
each divisor `max 1e-9 baseResponse[i]` used by `invert` equals
`baseResponse[i]` itself and is at least 0.01. -/
theorem baseResponse_meets_validity_floor (p : FilmProfile)
    (wavelengths : List ℝ)
    (hr : p.sensitometry.red ≠ []) (hg : p.sensitometry.green ≠ [])
    (hb : p.sensitometry.blue ≠ []) :
    (0.01 ≤ (SimulationEngine.baseResponse p wavelengths).v0 ∧
     0.01 ≤ (SimulationEngine.baseResponse p wavelengths).v1 ∧
     0.01 ≤ (SimulationEngine.baseResponse p wavelengths).v2) ∧
    (max 1e-9 (SimulationEngine.baseResponse p wavelengths).v0 =
        (SimulationEngine.baseResponse p wavelengths).v0 ∧
     max 1e-9 (SimulationEngine.baseResponse p wavelengths).v1 =
        (SimulationEngine.baseResponse p wavelengths).v1 ∧
     max 1e-9 (SimulationEngine.baseResponse p wavelengths).v2 =
        (SimulationEngine.baseResponse p wavelengths).v2) := by
  have hfloor : 0.01 ≤ (SimulationEngine.baseResponse p wavelengths).v0 ∧
      0.01 ≤ (SimulationEngine.baseResponse p wavelengths).v1 ∧
      0.01 ≤ (SimulationEngine.baseResponse p wavelengths).v2 := by
    unfold SimulationEngine.baseResponse
    set cb := SimulationEngine.scan p wavelengths
      (SimulationEngine.develop p (SimulationEngine.expose p ⟨0, 0, 0⟩ (-20)))
      with hcb
    by_cases h : cb.v0 < 0.01 ∨ cb.v1 < 0.01 ∨ cb.v2 < 0.01
    · rw [if_pos h]
      by_cases hslide : SimulationEngine.inferFilmType p = FilmType.reversal <;>
        simp [hslide] <;> norm_num
    · rw [if_neg h]
      push_neg at h
      obtain ⟨h0, h1, h2⟩ := h
      refine ⟨?_, ?_, ?_⟩ <;>
        simp only [] <;>
        exact le_max_of_le_right (by assumption)
  refine ⟨hfloor, ?_, ?_, ?_⟩
  · exact max_eq_right (le_trans (show (1e-9 : ℝ) ≤ 0.01 by norm_num) hfloor.1)
  · exact max_eq_right (le_trans (show (1e-9 : ℝ) ≤ 0.01 by norm_num) hfloor.2.1)
  · exact max_eq_right (le_trans (show (1e-9 : ℝ) ≤ 0.01 by norm_num) hfloor.2.2)

/-- C10 witness: the concrete profile has non-empty curves, so its base
response meets the floor on every channel. -/
theorem baseResponse_floor_witness :
    (testProfile.sensitometry.red ≠ [] ∧
     testProfile.sensitometry.green ≠ [] ∧
     testProfile.sensitometry.blue ≠ []) ∧
    (0.01 ≤ (SimulationEngine.baseResponse testProfile [440, 540, 650]).v0 ∧
     0.01 ≤ (SimulationEngine.baseResponse testProfile [440, 540, 650]).v1 ∧
     0.01 ≤ (SimulationEngine.baseResponse testProfile [440, 540, 650]).v2) := by
  have hne : testCurve ≠ [] := by simp [testCurve]
  exact ⟨⟨hne, hne, hne⟩,
    (baseResponse_meets_validity_floor testProfile [440, 540, 650]
      hne hne hne).1⟩

/-! ## C1: the matrix convention used by `expose` -/

/-- Reference definition following the words of the spec and claim C1:
raw = sensitivityMatrix x rgb under the row-major matrix-times-column-
vector convention `raw[i] = sum_j M[i][j]*rgb[j]` (the same convention
the constructor itself uses, via `multiplyMatrixVector`, to derive the
normalization scale), then the same scaling, clamping and log10 as the
source `expose`. -/
noncomputable def exposeAsSpecified (p : FilmProfile) (rgb : Vector3)
    (exposureCompEv : ℝ) : Vector3 :=
  let exposureScale := (2 : ℝ) ^ exposureCompEv
  let raw := multiplyMatrixVector (SimulationEngine.sensitivityMatrix p) rgb
  let ns := SimulationEngine.normalizationScale p
  let offs := SimulationEngine.sensitivityOffsets p
  let sR := raw.v0 * (ns.v0 * (10 : ℝ) ^ offs.v0 * exposureScale)
  let sG := raw.v1 * (ns.v1 * (10 : ℝ) ^ offs.v1 * exposureScale)
  let sB := raw.v2 * (ns.v2 * (10 : ℝ) ^ offs.v2 * exposureScale)
  ⟨log10 (max 1e-6 sR), log10 (max 1e-6 sG), log10 (max 1e-6 sB)⟩

/-- Concrete profile for C1: an asymmetric sensitivity matrix with a
single off-diagonal entry, and identical linear curves on all three
channels (so the relative sensitivity offsets are exactly 0). -/
def testProfileC1 : FilmProfile :=
  { id := "test_c1"
    physics := { rgb_to_raw_matrix := some [[0, 1, 0], [0, 0, 0], [0, 0, 0]] }
    sensitometry := { red := testCurve, green := testCurve, blue := testCurve } }

/-- log10 of the 1e-6 clamping epsilon. -/
lemma log10_epsilon : log10 (1e-6 : ℝ) = -6 := by
  have h : (1e-6 : ℝ) = (10 : ℝ) ^ (((-6 : ℤ) : ℝ)) := by
    rw [Real.rpow_intCast]; norm_num
  rw [log10, h, Real.logb_rpow (by norm_num) (by norm_num)]
  norm_num

/-- log10 of 1. -/
lemma log10_one : log10 (1 : ℝ) = 0 := by
  rw [log10, Real.logb_one]

/-- With identical red/green/blue curves the channel offsets vanish. -/
lemma sensitivityOffsets_testC1 :
    SimulationEngine.sensitivityOffsets testProfileC1 = ⟨0, 0, 0⟩ := by
  unfold SimulationEngine.sensitivityOffsets
  simp [testProfileC1, sub_self]

/-- The normalization scale of the C1 test profile is all ones (any zero
raw-white component falls back to 1 before inversion). -/
lemma normalizationScale_testC1 :
    SimulationEngine.normalizationScale testProfileC1 = ⟨1, 1, 1⟩ := by
  unfold SimulationEngine.normalizationScale
  simp [testProfileC1, SimulationEngine.sensitivityMatrix,
    multiplyMatrixVector, mGet, List.getD, jsOr]
  norm_num

/-- C1: the source `expose` computes the raw triple by the transposed
convention `raw[i] = sum_j M[j][i]*rgb[j]`, not the claim's
`raw[i] = sum_j M[i][j]*rgb[j]`: on the concrete profile the two
conventions produce different green channels ( 0 versus -6 ), and the
transposed one is what the code yields.  This also breaks the
constructor's own stated normalization goal (white to raw ~ 1.0), which
derives the scale through the untransposed `multiplyMatrixVector`. -/
theorem expose_uses_transposed_matrix :
    SimulationEngine.expose testProfileC1 ⟨1, 0, 0⟩ 0 = ⟨-6, 0, -6⟩ ∧
    exposeAsSpecified testProfileC1 ⟨1, 0, 0⟩ 0 = ⟨-6, -6, -6⟩ ∧
    (SimulationEngine.expose testProfileC1 ⟨1, 0, 0⟩ 0).v1 ≠
      (exposeAsSpecified testProfileC1 ⟨1, 0, 0⟩ 0).v1 := by
  have hl : log10 ((1 : ℝ) / 1000000) = -6 := by
    have h6 : ((1 : ℝ) / 1000000) = (1e-6 : ℝ) := by norm_num
    rw [h6]; exact log10_epsilon
  have hcode : SimulationEngine.expose testProfileC1 ⟨1, 0, 0⟩ 0 =
      ⟨-6, 0, -6⟩ := by
    unfold SimulationEngine.expose
    rw [sensitivityOffsets_testC1, normalizationScale_testC1]
    simp only [testProfileC1, SimulationEngine.sensitivityMatrix, mGet,
      List.getD, Real.rpow_zero]
    norm_num
    exact ⟨hl, log10_one, hl⟩
  have hspec : exposeAsSpecified testProfileC1 ⟨1, 0, 0⟩ 0 =
      ⟨-6, -6, -6⟩ := by
    unfold exposeAsSpecified
    rw [sensitivityOffsets_testC1, normalizationScale_testC1]
    simp only [testProfileC1, SimulationEngine.sensitivityMatrix,
      multiplyMatrixVector, mGet, List.getD, Real.rpow_zero]
    norm_num
    exact hl
  refine ⟨hcode, hspec, ?_⟩
  rw [hcode, hspec]
  norm_num

/-! ## Orchestrator pass-1 derived saturation factor (workbench page) -/

/-- `SATURATION_RESTORE_FACTOR` as derived from the pass-1 statistics
sums: averages are the sums over the pixel count; the raw factor is the
ratio of averages only when the average post-invert saturation exceeds
0.001, and 1.0 otherwise; the result is `min(max(raw*1.5, 1.0), 5.0)`. -/
noncomputable def SATURATION_RESTORE_FACTOR
    (inputSatSum satAfterInvert pixelCount : ℝ) : ℝ :=
  let avgInputSatFirstPass := inputSatSum / pixelCount
  let avgAfterInvertFirstPass := satAfterInvert / pixelCount
  let rawFactor :=
    if avgAfterInvertFirstPass > 0.001 then
      avgInputSatFirstPass / avgAfterInvertFirstPass
    else 1.0
  min (max (rawFactor * 1.5) 1.0) 5.0

/-- Reference definition following the words of claim C9: the ratio of
the average input saturation to the average post-invert saturation,
multiplied by 1.5, clamped to [1, 5] — with no low-saturation guard. -/
noncomputable def saturationFactorAsSpecified
    (inputSatSum satAfterInvert pixelCount : ℝ) : ℝ :=
  min (max ((inputSatSum / pixelCount) / (satAfterInvert / pixelCount) * 1.5)
    1.0) 5.0

/-- C9 counterexample: with average input saturation 0.5 and average
post-invert saturation 0.0005 (one pixel), the code's guard replaces the
ratio by 1.0 and yields 1.5, while the claim's clamped-ratio formula
yields 5. -/
theorem saturation_factor_counterexample :
    SATURATION_RESTORE_FACTOR 0.5 0.0005 1 = 1.5 ∧
    saturationFactorAsSpecified 0.5 0.0005 1 = 5 ∧
    SATURATION_RESTORE_FACTOR 0.5 0.0005 1 ≠
      saturationFactorAsSpecified 0.5 0.0005 1 := by
  have hcode : SATURATION_RESTORE_FACTOR 0.5 0.0005 1 = 1.5 := by
    simp only [SATURATION_RESTORE_FACTOR]
    rw [if_neg (by norm_num)]
    rw [max_eq_left (by norm_num), min_eq_left (by norm_num)]
    norm_num
  have hspec : saturationFactorAsSpecified 0.5 0.0005 1 = 5 := by
    unfold saturationFactorAsSpecified
    rw [max_eq_left (by norm_num), min_eq_right (by norm_num)]
    norm_num
  exact ⟨hcode, hspec, by rw [hcode, hspec]; norm_num⟩

/-- C9 (amended): the derived factor equals the clamped ratio formula
whenever the average post-invert saturation exceeds 0.001; otherwise the
raw factor is replaced by 1.0 so the result is 1.5; and in all cases the
factor lies in [1.0, 5.0]. -/
theorem saturation_factor_amended (s a c : ℝ) :
    (a / c > 0.001 → SATURATION_RESTORE_FACTOR s a c =
      min (max ((s / c) / (a / c) * 1.5) 1.0) 5.0) ∧
    (¬(a / c > 0.001) → SATURATION_RESTORE_FACTOR s a c = 1.5) ∧
    (1 ≤ SATURATION_RESTORE_FACTOR s a c ∧
      SATURATION_RESTORE_FACTOR s a c ≤ 5) := by
  refine ⟨?_, ?_, ?_, ?_⟩
  · intro h
    simp only [SATURATION_RESTORE_FACTOR]
    rw [if_pos h]
  · intro h
    simp only [SATURATION_RESTORE_FACTOR]
    rw [if_neg h, max_eq_left (by norm_num), min_eq_left (by norm_num)]
    norm_num
  · simp only [SATURATION_RESTORE_FACTOR]
    refine le_min ?_ (by norm_num)
    rw [le_max_iff]
    right
    norm_num
  · simp only [SATURATION_RESTORE_FACTOR]
    exact le_trans (min_le_right _ _) (by norm_num)

/-- C9 witness: with sums 0.4 and 0.2 over 2 pixels the guard hypothesis
holds and the amended formula and bounds apply. -/
theorem saturation_factor_amended_witness :
    ((0.2 : ℝ) / 2 > 0.001) ∧
    SATURATION_RESTORE_FACTOR 0.4 0.2 2 =
      min (max (((0.4 : ℝ) / 2) / ((0.2 : ℝ) / 2) * 1.5) 1.0) 5.0 ∧
    (1 ≤ SATURATION_RESTORE_FACTOR 0.4 0.2 2 ∧
      SATURATION_RESTORE_FACTOR 0.4 0.2 2 ≤ 5) := by
  exact ⟨by norm_num, (saturation_factor_amended 0.4 0.2 2).1 (by norm_num),
    (saturation_factor_amended 0.4 0.2 2).2.2⟩

/-! ## Pyramid bloom (`bloom.ts`)

Buffers (`Float32Array` RGBA, pixel-major, `(y*width+x)*4 + channel`)
are embedded as total maps `ℕ → ℝ`; a freshly allocated array is 0
outside the range its loops write, which the maps reproduce.  Pixel
coordinates are recovered from an index by `/ 4`, `% 4`, `/ w`, `% w`,
exactly inverting the source's index arithmetic for in-range indices. -/

/-- Planar float buffer as a total index-to-value map. -/
abbrev Buffer := ℕ → ℝ

/-- JS `Math.round` (round half toward positive infinity). -/
noncomputable def jsRound (x : ℝ) : ℤ := ⌊x + 1 / 2⌋

/-- `BloomOptions`; `weights` is optional with a 6-level default. -/
structure BloomOptions where
  strength : ℝ
  threshold : ℝ
  radius : ℝ
  weights : Option (List ℝ) := none

/-- Horizontal pass of `boxBlur`: mean of the in-range row neighbours
within `radius`; alpha is copied through; indices past the pixel area
stay 0. -/
noncomputable def boxBlurH (data : Buffer) (w h : ℕ) (radius : ℤ) : Buffer :=
  fun idx =>
    let p := idx / 4
    let c := idx % 4
    let y := p / w
    let x := p % w
    if p < w * h then
      if c = 3 then data idx
      else
        let valid := (Finset.Icc (-radius) radius).filter
          (fun dx => 0 ≤ (x : ℤ) + dx ∧ (x : ℤ) + dx < (w : ℤ))
        valid.sum (fun dx => data ((y * w + ((x : ℤ) + dx).toNat) * 4 + c)) /
          (valid.card : ℝ)
    else 0

/-- Vertical pass of `boxBlur`, applied to the horizontal pass's output. -/
noncomputable def boxBlurV (data : Buffer) (w h : ℕ) (radius : ℤ) : Buffer :=
  fun idx =>
    let p := idx / 4
    let c := idx % 4
    let y := p / w
    let x := p % w
    if p < w * h then
      if c = 3 then data idx
      else
        let valid := (Finset.Icc (-radius) radius).filter
          (fun dy => 0 ≤ (y : ℤ) + dy ∧ (y : ℤ) + dy < (h : ℤ))
        valid.sum (fun dy => data ((((y : ℤ) + dy).toNat * w + x) * 4 + c)) /
          (valid.card : ℝ)
    else 0

/-- `boxBlur(data, width, height, radius)`: identity below radius 1,
else separable horizontal-then-vertical mean. -/
noncomputable def boxBlur (data : Buffer) (w h : ℕ) (radius : ℤ) : Buffer :=
  if radius < 1 then data else boxBlurV (boxBlurH data w h radius) w h radius

/-- `downsample(data, width, height)`: halve resolution by point
sampling the even-coordinate source pixel. -/
noncomputable def downsampleData (data : Buffer) (w h : ℕ) : Buffer :=
  fun idx =>
    let nw := w / 2
    let nh := h / 2
    let p := idx / 4
    let c := idx % 4
    let y := p / nw
    let x := p % nw
    if p < nw * nh then data ((y * 2 * w + x * 2) * 4 + c) else 0

/-- Highlight extraction: pixels whose luminance exceeds the threshold
keep their RGB scaled by `(lum-threshold)/(1-threshold)` with alpha 1;
others become transparent black. -/
noncomputable def extractHighlights (data : Buffer) (threshold : ℝ) : Buffer :=
  fun idx =>
    let base := (idx / 4) * 4
    let r := data base
    let g := data (base + 1)
    let b := data (base + 2)
    let lum := 0.2126 * r + 0.7152 * g + 0.0722 * b
    if lum > threshold then
      if idx % 4 = 3 then 1.0
      else data idx * ((lum - threshold) / (1.0 - threshold))
    else 0

/-- Pyramid construction: at each level blur the current buffer with
radius `max(1, round(radius*(l+1)))`, record it with its dimensions, and
downsample for the next level.  (The source skips the final downsample;
here it is computed and discarded, producing the identical level list.) -/
noncomputable def buildPyramid (current : Buffer) (cw ch : ℕ) (radius : ℝ)
    (l : ℕ) : ℕ → List (Buffer × ℕ × ℕ)
  | 0 => []
  | n + 1 =>
    let blurRadius := max 1 (jsRound (radius * ((l : ℝ) + 1)))
    let blurred := boxBlur current cw ch blurRadius
    (blurred, cw, ch) ::
      buildPyramid (downsampleData current cw ch) (cw / 2) (ch / 2) radius
        (l + 1) n

/-- Compositing: bilinearly upsample every pyramid level back to full
resolution and add `weights[l] * strength` times its value onto the RGB
channels of the original buffer; alpha and out-of-range indices keep the
original values. -/
noncomputable def bloomComposite (linearData : Buffer) (width height : ℕ)
    (strength : ℝ) (weights : List ℝ)
    (levels : List (Buffer × ℕ × ℕ)) : Buffer :=
  fun idx =>
    let p := idx / 4
    let c := idx % 4
    let x := p % width
    let y := p / width
    if p < width * height ∧ c < 3 then
      let contrib := fun (l : ℕ) =>
        let lev := levels.getD l ((fun _ => 0), 0, 0)
        let ldata := lev.1
        let lw := lev.2.1
        let lh := lev.2.2
        let weight := (weights.getD l 0) * strength
        let scaleX := (lw : ℝ) / (width : ℝ)
        let scaleY := (lh : ℝ) / (height : ℝ)
        let fy := (y : ℝ) * scaleY
        let y0 := (⌊fy⌋).toNat
        let y1 := min (lh - 1) (y0 + 1)
        let dy := fy - (y0 : ℝ)
        let fx := (x : ℝ) * scaleX
        let x0 := (⌊fx⌋).toNat
        let x1 := min (lw - 1) (x0 + 1)
        let dx := fx - (x0 : ℝ)
        let i00 := (y0 * lw + x0) * 4
        let i10 := (y0 * lw + x1) * 4
        let i01 := (y1 * lw + x0) * 4
        let i11 := (y1 * lw + x1) * 4
        let w00 := (1 - dx) * (1 - dy)
        let w10 := dx * (1 - dy)
        let w01 := (1 - dx) * dy
        let w11 := dx * dy
        (ldata (i00 + c) * w00 + ldata (i10 + c) * w10 +
          ldata (i01 + c) * w01 + ldata (i11 + c) * w11) * weight
      linearData idx + (Finset.range levels.length).sum contrib
    else linearData idx

/-- `applyPyramidBloom(linearData, width, height, options)`: strength at
or below 0 returns the input buffer unchanged; otherwise extract
highlights, build the pyramid (one level per weight), and composite. -/
noncomputable def applyPyramidBloom (linearData : Buffer) (width height : ℕ)
    (options : BloomOptions) : Buffer :=
  let weights := options.weights.getD [0.1, 0.2, 0.4, 0.8, 1.0, 1.0]
  if options.strength ≤ 0 then linearData
  else
    let highlightData := extractHighlights linearData options.threshold
    let levels :=
      buildPyramid highlightData width height options.radius 0 weights.length
    bloomComposite linearData width height options.strength weights levels

/-- C8: bloom with strength at or below 0 returns the input buffer
unchanged (the very same value), for every buffer, dimensions, and
options. -/
theorem bloom_noop_for_nonpositive_strength (linearData : Buffer)
    (width height : ℕ) (options : BloomOptions)
    (h : options.strength ≤ 0) :
    applyPyramidBloom linearData width height options = linearData := by
  simp only [applyPyramidBloom]
  rw [if_pos h]

/-- C8 witness: a concrete constant buffer with strength exactly 0 is
returned unchanged. -/
theorem bloom_noop_witness :
    ((⟨0, 0.65, 2.0, none⟩ : BloomOptions).strength ≤ 0) ∧
    applyPyramidBloom (fun _ => 0.25) 2 2 ⟨0, 0.65, 2.0, none⟩ =
      (fun _ => 0.25) := by
  refine ⟨le_refl 0, ?_⟩
  exact bloom_noop_for_nonpositive_strength (fun _ => 0.25) 2 2
    ⟨0, 0.65, 2.0, none⟩ (le_refl 0)

/-! ## C4: interpolation is consistent with its control points -/

/-- Strict x-ordering of curve control points is transitive. -/
instance : IsTrans Point (fun p q : Point => p.x < q.x) :=
  ⟨fun _ _ _ h1 h2 => lt_trans h1 h2⟩

/-- Along a strictly x-increasing curve, the head's x bounds every
element's x from below. -/
lemma head_x_le_get (t : List Point) :
    ∀ (q : Point) (k : ℕ) (hk : k < (q :: t).length),
      List.Chain' (fun p q : Point => p.x < q.x) (q :: t) →
      q.x ≤ ((q :: t).get ⟨k, hk⟩).x := by
  induction t with
  | nil =>
    intro q k hk _
    have hk1 : k < 1 := by simpa using hk
    have hk0 : k = 0 := by omega
    subst hk0
    simp
  | cons r t' ih =>
    intro q k hk hc
    match k with
    | 0 => simp
    | k' + 1 =>
      rw [List.get_cons_succ]
      have hqr : q.x < r.x := (List.chain'_cons.mp hc).1
      have hr := ih r k' (by simpa using hk) (List.chain'_cons.mp hc).2
      exact le_trans (le_of_lt hqr) hr

/-- Strict chains give strictly increasing x along indexed access. -/
lemma get_x_strictMono (l : List Point)
    (hc : List.Chain' (fun p q : Point => p.x < q.x) l)
    (i j : Fin l.length) (hij : i < j) : (l.get i).x < (l.get j).x :=
  List.pairwise_iff_get.mp (List.chain'_iff_pairwise.mp hc) i j hij

/-- The linear scan of `interpolate` returns the blend of the (unique,
hence first) bracketing pair. -/
lemma interpLoop_finds_bracket (x : ℝ) :
    ∀ (i : ℕ) (l : List Point),
      List.Chain' (fun p q : Point => p.x < q.x) l →
      ∀ (hi : i + 1 < l.length),
        (l.get ⟨i, Nat.lt_of_succ_lt hi⟩).x ≤ x →
        x < (l.get ⟨i + 1, hi⟩).x →
        interpLoop x l = some ((l.get ⟨i, Nat.lt_of_succ_lt hi⟩).y +
          (x - (l.get ⟨i, Nat.lt_of_succ_lt hi⟩).x) /
            ((l.get ⟨i + 1, hi⟩).x - (l.get ⟨i, Nat.lt_of_succ_lt hi⟩).x) *
          ((l.get ⟨i + 1, hi⟩).y - (l.get ⟨i, Nat.lt_of_succ_lt hi⟩).y)) := by
  intro i
  induction i with
  | zero =>
    intro l hc hi h0 h1
    match l, hi with
    | p :: q :: rest, _ =>
      simp only [List.get] at h0 h1 ⊢
      unfold interpLoop
      rw [if_pos ⟨h0, h1⟩]
  | succ i' ih =>
    intro l hc hi h0 h1
    match l, hi with
    | p :: q :: rest, hi =>
      have htail : List.Chain' (fun p q : Point => p.x < q.x) (q :: rest) :=
        (List.chain'_cons.mp hc).2
      have hi' : i' + 1 < (q :: rest).length := by
        simpa using hi
      have h0' : ((q :: rest).get ⟨i', Nat.lt_of_succ_lt hi'⟩).x ≤ x := by
        rw [List.get_cons_succ] at h0
        exact h0
      have h1' : x < ((q :: rest).get ⟨i' + 1, hi'⟩).x := by
        rw [List.get_cons_succ] at h1
        exact h1
      have hq : q.x ≤ x := by
        refine le_trans ?_ h0'
        exact head_x_le_get rest q i' (Nat.lt_of_succ_lt hi') htail
      have hcond : ¬(p.x ≤ x ∧ x < q.x) := by
        rintro ⟨-, hlt⟩
        exact absurd hq (not_le.mpr hlt)
      unfold interpLoop
      rw [if_neg hcond]
      rw [ih (q :: rest) htail hi' h0' h1']
      rfl

/-- C4: for a non-empty curve with strictly increasing control-point x,
`interpolate` equals the first y at or below the domain, the last y at
or above the domain, and on any bracketing interval
`[p[i].x, p[i+1].x)` lies between the two bracketing y-values. -/
theorem interpolate_matches_control_points (points : List Point)
    (hne : points ≠ [])
    (hs : List.Chain' (fun p q : Point => p.x < q.x) points) (x : ℝ) :
    (x ≤ (points.head hne).x → interpolate x points = (points.head hne).y) ∧
    ((points.getLast hne).x ≤ x →
      interpolate x points = (points.getLast hne).y) ∧
    (∀ (i : ℕ) (hi : i + 1 < points.length),
      (points.get ⟨i, Nat.lt_of_succ_lt hi⟩).x ≤ x →
      x < (points.get ⟨i + 1, hi⟩).x →
      min (points.get ⟨i, Nat.lt_of_succ_lt hi⟩).y
          (points.get ⟨i + 1, hi⟩).y ≤ interpolate x points ∧
        interpolate x points ≤
          max (points.get ⟨i, Nat.lt_of_succ_lt hi⟩).y
            (points.get ⟨i + 1, hi⟩).y) := by
  obtain ⟨p0, rest, rfl⟩ := List.exists_cons_of_ne_nil hne
  have hgl : (p0 :: rest).getLast hne =
      (p0 :: rest).get ⟨(p0 :: rest).length - 1, by simp⟩ := by
    rw [List.getLast_eq_getElem]
    simp [List.get_eq_getElem]
  refine ⟨?_, ?_, ?_⟩
  · intro h
    simp only [List.head_cons] at h
    simp only [interpolate]
    rw [if_pos h]
    simp
  · intro h
    by_cases hx0 : x ≤ p0.x
    · match rest with
      | [] =>
        simp only [interpolate]
        rw [if_pos hx0]
        rfl
      | r1 :: rest' =>
        exfalso
        have hmono := get_x_strictMono (p0 :: r1 :: rest') hs ⟨0, by simp⟩
          ⟨(p0 :: r1 :: rest').length - 1, by simp⟩
          (Fin.mk_lt_mk.mpr (by simp))
        rw [← hgl] at hmono
        simp only [List.get] at hmono
        have hcontra : ((p0 :: r1 :: rest').getLast hne).x ≤ p0.x :=
          le_trans h hx0
        exact absurd hcontra (not_le.mpr hmono)
    · simp only [interpolate]
      have h' : ((p0 :: rest).getLast (List.cons_ne_nil p0 rest)).x ≤ x := h
      rw [if_neg hx0, if_pos h']
  · intro i hi hx1 hx2
    by_cases hx0 : x ≤ p0.x
    · have hieq : i = 0 := by
        by_contra hi0
        obtain ⟨i', rfl⟩ := Nat.exists_eq_succ_of_ne_zero hi0
        have hmono := get_x_strictMono (p0 :: rest) hs ⟨0, by simp⟩
          ⟨i' + 1, Nat.lt_of_succ_lt hi⟩ (Fin.mk_lt_mk.mpr (Nat.succ_pos i'))
        simp only [List.get] at hmono
        have hcontra :
            ((p0 :: rest).get ⟨i' + 1, Nat.lt_of_succ_lt hi⟩).x ≤ p0.x :=
          le_trans hx1 hx0
        exact absurd hcontra (not_le.mpr hmono)
      subst hieq
      have hval : interpolate x (p0 :: rest) = p0.y := by
        simp only [interpolate]
        rw [if_pos hx0]
      rw [hval]
      simp only [List.get]
      exact ⟨min_le_left _ _, le_max_left _ _⟩
    · by_cases hx3 : ((p0 :: rest).getLast hne).x ≤ x
      · exfalso
        have hle : i + 1 ≤ (p0 :: rest).length - 1 := by
          omega
        have hlast : ((p0 :: rest).get ⟨i + 1, hi⟩).x ≤
            ((p0 :: rest).getLast hne).x := by
          rw [hgl]
          rcases lt_or_eq_of_le hle with hlt | heq
          · exact le_of_lt (get_x_strictMono (p0 :: rest) hs _ _ hlt)
          · simp [heq]
        have : ((p0 :: rest).get ⟨i + 1, hi⟩).x ≤ x := le_trans hlast hx3
        exact absurd this (not_le.mpr hx2)
      · have hloop := interpLoop_finds_bracket x i (p0 :: rest) hs hi hx1 hx2
        have hval : interpolate x (p0 :: rest) =
            (((p0 :: rest).get ⟨i, Nat.lt_of_succ_lt hi⟩).y +
              (x - ((p0 :: rest).get ⟨i, Nat.lt_of_succ_lt hi⟩).x) /
                (((p0 :: rest).get ⟨i + 1, hi⟩).x -
                  ((p0 :: rest).get ⟨i, Nat.lt_of_succ_lt hi⟩).x) *
              (((p0 :: rest).get ⟨i + 1, hi⟩).y -
                ((p0 :: rest).get ⟨i, Nat.lt_of_succ_lt hi⟩).y)) := by
          simp only [interpolate]
          rw [if_neg hx0, if_neg hx3, hloop]
          rfl
        rw [hval]
        set a := ((p0 :: rest).get ⟨i, Nat.lt_of_succ_lt hi⟩).y with ha
        set b := ((p0 :: rest).get ⟨i + 1, hi⟩).y with hb
        set px := ((p0 :: rest).get ⟨i, Nat.lt_of_succ_lt hi⟩).x with hpx
        set qx := ((p0 :: rest).get ⟨i + 1, hi⟩).x with hqx
        have hden : 0 < qx - px := by
          have := lt_of_le_of_lt hx1 hx2
          linarith
        have ht0 : 0 ≤ (x - px) / (qx - px) :=
          div_nonneg (by linarith) (le_of_lt hden)
        have ht1 : (x - px) / (qx - px) ≤ 1 := by
          rw [div_le_one hden]
          linarith
        set t := (x - px) / (qx - px) with htdef
        rcases le_total a b with hab | hba
        · constructor
          · rw [min_eq_left hab]
            nlinarith
          · rw [max_eq_right hab]
            nlinarith
        · constructor
          · rw [min_eq_right hba]
            nlinarith
          · rw [max_eq_left hba]
            nlinarith

/-- C4 witness: on the concrete strictly increasing two-point curve, the
clamping and bracketing conclusions hold at x = -5 (below the domain)
and x = 0 (inside the only interval). -/
theorem interpolate_matches_witness :
    (testCurve ≠ [] ∧
      List.Chain' (fun p q : Point => p.x < q.x) testCurve ∧
      (-5 : ℝ) ≤ (testCurve.head (by simp [testCurve])).x ∧
      (testCurve.get ⟨0, by simp [testCurve]⟩).x ≤ 0 ∧
      (0 : ℝ) < (testCurve.get ⟨1, by simp [testCurve]⟩).x) ∧
    interpolate (-5) testCurve = (testCurve.head (by simp [testCurve])).y ∧
    (min (testCurve.get ⟨0, by simp [testCurve]⟩).y
        (testCurve.get ⟨1, by simp [testCurve]⟩).y ≤ interpolate 0 testCurve ∧
      interpolate 0 testCurve ≤
        max (testCurve.get ⟨0, by simp [testCurve]⟩).y
          (testCurve.get ⟨1, by simp [testCurve]⟩).y) := by
  have hne : testCurve ≠ [] := by simp [testCurve]
  have hs : List.Chain' (fun p q : Point => p.x < q.x) testCurve := by
    norm_num [testCurve, List.chain'_cons]
  have hhead : (-5 : ℝ) ≤ (testCurve.head hne).x := by
    norm_num [testCurve]
  have h0 : (testCurve.get ⟨0, by simp [testCurve]⟩).x ≤ 0 := by
    norm_num [testCurve]
  have h1 : (0 : ℝ) < (testCurve.get ⟨1, by simp [testCurve]⟩).x := by
    norm_num [testCurve]
  refine ⟨⟨hne, hs, hhead, h0, h1⟩, ?_, ?_⟩
  · exact (interpolate_matches_control_points testCurve hne hs (-5)).1 hhead
  · exact (interpolate_matches_control_points testCurve hne hs 0).2.2 0
      (by simp [testCurve]) h0 h1

end SpectraFilm
